import Mathlib

/-
Verification of the textbook.town Flask backend against its design
specification.  The development shallowly embeds the Python sources
(src/Flask-backend/api.py and src/Flask-backend/search/functions.py):
the relational tables become lists of records, the ORM session becomes
explicit state passing, and Python exceptions become Except/Option
results.  Helper functions from validate.py are not part of the
provided sources and are modelled from the specification where needed.
-/

/-! ## String helpers

Python string primitives (split, lower, substring containment, int
parsing, negative slicing) modelled by structural recursion on the
character list so that every definition reduces in the kernel. -/

/-- Models Python str.lower for the ASCII strings used by the app. -/
def strToLower (s : String) : String := ⟨s.data.map Char.toLower⟩

/-- Bool test that the second list starts with the first list. -/
def seqStartsWith : List Char → List Char → Bool
  | [], _ => true
  | _ :: _, [] => false
  | a :: as, b :: bs => a == b && seqStartsWith as bs

/-- Bool test that the first list occurs as a contiguous run inside the
second list; models SQL LIKE with percent wildcards on both sides. -/
def seqContains (pat : List Char) : List Char → Bool
  | [] => seqStartsWith pat []
  | c :: cs => seqStartsWith pat (c :: cs) || seqContains pat cs

/-- Models Python searchString.split applied to the three character
delimiter percent-two-zero, exactly as written in search/functions.py
line 25.  The accumulator holds the current token reversed. -/
def splitOn20Aux : List Char → List Char → List String
  | [], acc => [⟨acc.reverse⟩]
  | '%' :: '2' :: '0' :: rest, acc => ⟨acc.reverse⟩ :: splitOn20Aux rest []
  | c :: rest, acc => splitOn20Aux rest (c :: acc)

/-- The keyword list produced by tokenizing a query. -/
def splitKeywords (searchString : String) : List String :=
  splitOn20Aux searchString.data []

/-- Accumulates decimal digits; fails on the first non-digit. -/
def parseDigits : List Char → Nat → Option Nat
  | [], acc => some acc
  | c :: cs, acc =>
    if c.isDigit then parseDigits cs (acc * 10 + (c.toNat - 48)) else none

/-- Models Python int(s) on plain decimal strings: optional sign
followed by at least one digit; anything else raises, modelled none. -/
def str_to_int (s : String) : Option Int :=
  match s.data with
  | [] => none
  | ['-'] => none
  | ['+'] => none
  | '-' :: cs => (parseDigits cs 0).map (fun n => -(n : Int))
  | '+' :: cs => (parseDigits cs 0).map (fun n => (n : Int))
  | cs => (parseDigits cs 0).map (fun n => (n : Int))

/-- Models the Python slice filename[-4:]: the last four characters,
or the whole string when it is shorter than four characters. -/
def lastFourChars (s : String) : String := ⟨(s.data.reverse.take 4).reverse⟩

/-! ## Data model (api.py lines 39-118)

One record type per table.  Dates are modelled as integers counting
days, so the date comparison in the lifecycle check is integer order. -/

/-- users table (api.py lines 39-48). -/
structure User where
  id : Nat
  username : String
  password_hash : String
  contact : String
deriving DecidableEq, Repr

/-- textbooks table (api.py lines 74-94). -/
structure Textbook where
  id : Nat
  title : String
  author : String
  isbn : String
  publisher : String
  yearPublished : Int
  description : String
  version : String
  condition : Int
  course : String
  coverPhotoName : String
  bestPhotoName : String
  worstPhotoName : String
  averagePhotoName : String
  seller : Nat
  auction : Nat
deriving DecidableEq, Repr

/-- auctions table (api.py lines 108-118). -/
structure Auction where
  id : Nat
  textbook : Nat
  minimumBid : Int
  salePrice : Int
  isCurrent : Bool
  closingDate : Int
deriving DecidableEq, Repr

/-- The persistent store plus the ambient sources of freshness the code
consumes: autoincrement counters, the upload folder content the
collision check inspects, and the stream of uuid strings uuid4 will
hand out next. -/
structure DB where
  users : List User
  textbooks : List Textbook
  auctions : List Auction
  nextTextbookId : Nat
  nextAuctionId : Nat
  files : List String
  uuids : List String
deriving DecidableEq, Repr

/-! ## Search (search/functions.py) -/

/-- The per-keyword query of functions.py line 33: all textbooks whose
lowercased title contains the lowercased keyword as a substring, in
table (insertion) order. -/
def titleMatches (keyword : String) (t : Textbook) : Bool :=
  seqContains (strToLower keyword).data (strToLower t.title).data

/-- One entry of queryResults: the match list for a single keyword. -/
def keywordQuery (db : DB) (keyword : String) : List Textbook :=
  db.textbooks.filter (titleMatches keyword)

/-- Auction.query.get on the auctions table: the primary key lookup the
search code performs with a textbook id as the key. -/
def getAuction (db : DB) (key : Nat) : Option Auction :=
  db.auctions.find? (fun a => a.id == key)

/-- functions.py lines 62-71: fetch the auction whose primary key is
the given textbook id, and when the current EST date is strictly past
its closing date set isCurrent to false and commit.  Python would raise
AttributeError when no such auction row exists, modelled as none. -/
def checkAndModifyAuctionIsCurrent (today : Int) (db : DB) (textbookID : Nat) : Option DB :=
  match getAuction db textbookID with
  | none => none
  | some bookAuction =>
    if today > bookAuction.closingDate then
      some { db with auctions := db.auctions.map (fun b =>
        if b.id == textbookID then { b with isCurrent := false } else b) }
    else
      some db

/-- The main loop of functions.py lines 47-56: walk the first keyword
match list in order, run the lifecycle check on each id (threading the
store), and keep the ids present in every remaining match list. -/
def searchScan (today : Int) (rest : List (List Nat)) : List Nat → DB → Option (List Nat × DB)
  | [], db => some ([], db)
  | tID :: tIDs, db =>
    match checkAndModifyAuctionIsCurrent today db tID with
    | none => none
    | some db1 =>
      match searchScan today rest tIDs db1 with
      | none => none
      | some (results, db2) =>
        if rest.all (fun idList => idList.contains tID) then
          some (tID :: results, db2)
        else
          some (results, db2)

/-- The final comprehension of functions.py line 59: keep the ids whose
primary-key auction lookup has isCurrent true; a missing auction row
would raise AttributeError, modelled as none. -/
def filterCurrent (db : DB) : List Nat → Option (List Nat)
  | [] => some []
  | tID :: tIDs =>
    match getAuction db tID with
    | none => none
    | some a => (filterCurrent db tIDs).map (fun r => if a.isCurrent then tID :: r else r)

/-- functions.py lines 18-59: tokenize, query each keyword against the
original store, intersect against the first match list while lazily
closing expired auctions found there, then filter to open auctions.
Returns the id list and the updated store. -/
def search_by_title (today : Int) (db : DB) (searchString : String) : Option (List Nat × DB) :=
  let keywords := splitKeywords searchString
  let queryResults := keywords.map (keywordQuery db)
  if queryResults.length == 0 then
    some ([], db)
  else
    let matchingIDs := queryResults.map (List.map Textbook.id)
    match matchingIDs with
    | [] => some ([], db)
    | first :: rest =>
      match searchScan today rest first db with
      | none => none
      | some (searchResults, db1) =>
        match filterCurrent db1 searchResults with
        | none => none
        | some final => some (final, db1)

/-- Convenience: the first keyword match id list of a query. -/
def firstMatchIDs (db : DB) (searchString : String) : List Nat :=
  match splitKeywords searchString with
  | [] => []
  | k :: _ => (keywordQuery db k).map Textbook.id

/-- Bool version of the line 59 filter condition. -/
def auctionIsCurrentB (db : DB) (tID : Nat) : Bool :=
  match getAuction db tID with
  | none => false
  | some a => a.isCurrent

/-! ## Authentication layer (api.py lines 39-139)

The token signing primitives (itsdangerous) and the password hashing
primitives (passlib) are external collaborators the spec places out of
scope, so a token is modelled by the outcome of deserializing it and a
hash by an injective encoding of the password. -/

/-- What s.loads does on a given token string: returns the payload id,
raises SignatureExpired, or raises BadSignature (api.py lines 61-69). -/
inductive TokenParse where
  | valid (id : Nat)
  | expired
  | badSignature
deriving DecidableEq, Repr

/-- Models pwd_context.encrypt (external passlib, out of scope per the
spec): an injective encoding standing for the derived hash. -/
def hash_password (password : String) : String :=
  "pbkdf2." ++ password

/-- api.py lines 54-55: check a candidate password against the stored
hash. -/
def User.verify_password (u : User) (password : String) : Bool :=
  hash_password password == u.password_hash

/-- api.py lines 61-71: both raised signature failures return None, an
id payload is looked up in the users table (get returns None for an
unknown id, so the result is again None). -/
def verify_auth_token (users : List User) (t : TokenParse) : Option User :=
  match t with
  | .expired => none
  | .badSignature => none
  | .valid i => users.find? (fun u => u.id == i)

/-- One credential string as the code sees it: the raw text used for
the username lookup, together with what the serializer does to it. -/
structure Credential where
  raw : String
  parse : TokenParse
deriving DecidableEq, Repr

/-- api.py lines 122-139: try the token first; on failure fall back to
a username lookup plus password check.  Returns the boolean outcome and
the user stored into g.user on success. -/
def verify_password (users : List User) (c : Credential) (password : String) : Bool × Option User :=
  match verify_auth_token users c.parse with
  | some user => (true, some user)
  | none =>
    match users.find? (fun u => u.username == c.raw) with
    | none => (false, none)
    | some user =>
      if user.verify_password password then (true, some user) else (false, none)

/-! ## Registration (api.py lines 142-185) -/

/-- The JSON body of a register request; absent keys are none, as
request.json.get returns None for them. -/
structure RegisterRequest where
  username : Option String
  password : Option String
  passwordCheck : Option String
  contactLink : Option String
deriving DecidableEq, Repr

/-- A jsonify response body with a status and an optional message. -/
structure RegResponse where
  status : String
  message : Option String
deriving DecidableEq, Repr

def jsonSuccess : RegResponse := ⟨"success", none⟩

def jsonFailure (m : String) : RegResponse := ⟨"failure", some m⟩

/-- api.py lines 142-185.  Line 148 lowercases the username before the
None check, so a request without a username raises AttributeError
(modelled Except.error); every other validation failure is a JSON
failure body.  On success the lowercased username and the password hash
are stored. -/
def new_user (req : RegisterRequest) (users : List User) (nextId : Nat) :
    Except String (RegResponse × List User) :=
  match req.username with
  | none => .error "AttributeError: NoneType object has no attribute lower"
  | some rawName =>
    let username := strToLower rawName
    match req.password, req.passwordCheck, req.contactLink with
    | some password1, some password2, some contact =>
      if contact == "" then
        .ok (jsonFailure "missing_arguments", users)
      else if username.data.length > 32 then
        .ok (jsonFailure "username_too_long", users)
      else if username.data.length < 4 then
        .ok (jsonFailure "username_too_short", users)
      else if password1 != password2 then
        .ok (jsonFailure "passwords_not_matching", users)
      else if password1.data.length < 6 then
        .ok (jsonFailure "password_too_short", users)
      else if (users.find? (fun u => u.username == username)).isSome then
        .ok (jsonFailure "username_taken", users)
      else
        .ok (jsonSuccess,
          users ++ [{ id := nextId, username := username,
                      password_hash := hash_password password1, contact := contact }])
    | _, _, _ => .ok (jsonFailure "missing_arguments", users)

/-! ## File upload helpers (api.py lines 347-368) -/

def ALLOWED_EXTENSIONS : List String := ["png", "jpg", "jpeg", "gif"]

/-- api.py lines 347-353: a dot must occur, and the lowercased text
after the final dot (rsplit) must be an allowed extension. -/
def allowedFile (filename : String) : Bool :=
  filename.data.contains '.' &&
    ALLOWED_EXTENSIONS.contains
      (strToLower ⟨(filename.data.reverse.takeWhile (fun c => c != '.')).reverse⟩)

/-- The character classes werkzeug secure_filename keeps for the plain
ASCII names this app generates. -/
def isSafeFilenameChar (c : Char) : Bool :=
  c.isAlphanum || c == '.' || c == '-' || c == '_'

/-- Models werkzeug secure_filename (external collaborator): unsafe
characters are dropped; on the uuid-plus-extension names generated here
it is the identity. -/
def secure_filename (s : String) : String :=
  ⟨s.data.filter isSafeFilenameChar⟩

/-- api.py lines 356-368: build uuid plus the last four characters of
the filename, and while the name collides with the upload folder build
it again, each retry slicing the previously generated name (the Python
variable is reassigned).  The uuid stream is explicit; an exhausted
stream models the loop never finding a fresh name. -/
def uniqueFileName (files : List String) (filename : String) :
    List String → Option (String × List String)
  | [] => none
  | u :: us =>
    let fname := secure_filename (u ++ lastFourChars filename)
    if files.contains fname then
      uniqueFileName files fname us
    else
      some (fname, us)

/-! ## Validation helpers (validate.py, not in the provided sources) -/

/-- Modelled from the spec: validate.py is not under src, and section
4.1 defines validPubYear as true iff the string parses as an integer
between 1900 and 2017 inclusive. -/
def validPubYear (yearString : String) : Bool :=
  match str_to_int yearString with
  | some y => decide (1900 ≤ y) && decide (y ≤ 2017)
  | none => false

/-- Modelled from the spec: validate.py is not under src, and section
4.1 defines validMinimumBid as true iff the string parses as a strictly
positive integer. -/
def validMinimumBid (bidString : String) : Bool :=
  match str_to_int bidString with
  | some b => decide (0 < b)
  | none => false

/-- Modelled from the spec: validate.py is not under src; dates are day
counts and a date string is the decimal rendering of its day count.
Only invoked after validDateString has accepted the string. -/
def stringToDate (dateString : String) : Int :=
  (str_to_int dateString).getD 0

/-- Modelled from the spec: validate.py is not under src, and section
4.1 accepts a date string iff it parses into a date strictly after
tomorrow (current EST date plus one) and no more than 60 days after the
current EST date.  The current EST date is passed explicitly. -/
def validDateString (today : Int) (dateString : String) : Bool :=
  match str_to_int dateString with
  | some d => decide (today + 1 < d) && decide (d ≤ today + 60)
  | none => false

/-! ## Adding a book (api.py lines 221-315) -/

/-- The multipart form of a book/add request: the four uploaded file
names plus the text fields, keyed as in api.py lines 229-254. -/
structure BookForm where
  cover : String
  pic1 : String
  pic2 : String
  pic3 : String
  title : String
  isbn : String
  author : String
  publisher : String
  version : String
  price : String
  subject : String
  year : String
  description : String
  rating : String
  sellby : String
deriving DecidableEq, Repr

/-- A jsonify response body with status, optional message and the id
returned on success. -/
structure ApiResponse where
  status : String
  message : Option String
  id : Option Nat
deriving DecidableEq, Repr

/-- api.py lines 221-315: validate extensions, reject blank text fields
(description is absent from the line 257-258 check), validate year,
closing date and minimum bid, store the four images under fresh names,
then insert the textbook and auction rows, flush to obtain their ids,
patch the two foreign keys, and commit.  int(ratingStr) on a non-parse
raises ValueError, modelled Except.error. -/
def add_book (today : Int) (sellerId : Nat) (form : BookForm) (st : DB) :
    Except String (ApiResponse × DB) :=
  if !allowedFile form.cover || !allowedFile form.pic1
      || !allowedFile form.pic2 || !allowedFile form.pic3 then
    .ok (⟨"failure", some "Missing photos or improper photo extensions", none⟩, st)
  else if form.title == "" || form.isbn == "" || form.author == "" || form.publisher == ""
      || form.version == "" || form.price == "" || form.subject == "" || form.year == ""
      || form.rating == "" || form.price == "" || form.sellby == "" then
    .ok (⟨"failure", some "All form fields must be filled out", none⟩, st)
  else if !validPubYear form.year then
    .ok (⟨"failure", some "Year published must be between 1900 and 2017", none⟩, st)
  else if !validDateString today form.sellby then
    .ok (⟨"failure", some "Auction must close between tomorrow and 60 days from now", none⟩, st)
  else
    match str_to_int form.rating with
    | none => .error "ValueError: invalid literal for int"
    | some rating =>
      if !validMinimumBid form.price then
        .ok (⟨"failure", some "Minimum bid must be a positive integer", none⟩, st)
      else
        let pubYear := (str_to_int form.year).getD 0
        let closingDate := stringToDate form.sellby
        let minimumBid := (str_to_int form.price).getD 0
        match uniqueFileName st.files form.cover st.uuids with
        | none => .error "uuid stream exhausted"
        | some (coverPath, us1) =>
          let files1 := st.files ++ [coverPath]
          match uniqueFileName files1 form.pic1 us1 with
          | none => .error "uuid stream exhausted"
          | some (bestPath, us2) =>
            let files2 := files1 ++ [bestPath]
            match uniqueFileName files2 form.pic2 us2 with
            | none => .error "uuid stream exhausted"
            | some (worstPath, us3) =>
              let files3 := files2 ++ [worstPath]
              match uniqueFileName files3 form.pic3 us3 with
              | none => .error "uuid stream exhausted"
              | some (averagePath, us4) =>
                let files4 := files3 ++ [averagePath]
                let newBook : Textbook :=
                  { id := st.nextTextbookId, title := form.title, author := form.author,
                    isbn := form.isbn, publisher := form.publisher, yearPublished := pubYear,
                    description := form.description, version := form.version,
                    condition := rating, course := form.subject, coverPhotoName := coverPath,
                    bestPhotoName := bestPath, worstPhotoName := worstPath,
                    averagePhotoName := averagePath, seller := sellerId, auction := 0 }
                let newAuction : Auction :=
                  { id := st.nextAuctionId, textbook := 0, minimumBid := minimumBid,
                    salePrice := 0, isCurrent := true, closingDate := closingDate }
                let linkedBook := { newBook with auction := newAuction.id }
                let linkedAuction := { newAuction with textbook := newBook.id }
                .ok (⟨"success", none, some newBook.id⟩,
                  { st with
                    textbooks := st.textbooks ++ [linkedBook],
                    auctions := st.auctions ++ [linkedAuction],
                    nextTextbookId := st.nextTextbookId + 1,
                    nextAuctionId := st.nextAuctionId + 1,
                    files := files4, uuids := us4 })

/-! ## Derived descriptions of the search pipeline -/

/-- The remaining per-keyword match id lists (matchingIDs beyond the
first). -/
def restMatchIDLists (db : DB) (searchString : String) : List (List Nat) :=
  match splitKeywords searchString with
  | [] => []
  | _ :: ks => ks.map (fun k => (keywordQuery db k).map Textbook.id)

/-- The intersected id list the loop of lines 47-56 accumulates. -/
def intersectedIDs (db : DB) (searchString : String) : List Nat :=
  (firstMatchIDs db searchString).filter
    (fun tID => (restMatchIDLists db searchString).all (fun idList => idList.contains tID))

/-- The auction update the scan applies: an auction is closed exactly
when its id occurs in the scanned id list and it is past its closing
date. -/
def closeExpired (today : Int) (ids : List Nat) (a : Auction) : Auction :=
  if ids.contains a.id && decide (today > a.closingDate) then { a with isCurrent := false } else a

theorem searchScan_results (today : Int) (rest : List (List Nat)) :
    ∀ (ids : List Nat) (db : DB) (r : List Nat) (db1 : DB),
    searchScan today rest ids db = some (r, db1) →
    r = ids.filter (fun tID => rest.all (fun idList => idList.contains tID)) := by
  intro ids
  induction ids with
  | nil =>
    intro db r db1 h
    simp only [searchScan, Option.some.injEq, Prod.mk.injEq] at h
    obtain ⟨h1, _⟩ := h
    simp [← h1]
  | cons t ts ih =>
    intro db r db1 h
    rw [searchScan] at h
    cases hchk : checkAndModifyAuctionIsCurrent today db t with
    | none => simp [hchk] at h
    | some dbx =>
      simp only [hchk] at h
      cases hscan : searchScan today rest ts dbx with
      | none => simp [hscan] at h
      | some p =>
        obtain ⟨r2, db2⟩ := p
        simp only [hscan] at h
        have hr2 := ih dbx r2 db2 hscan
        rw [List.filter_cons]
        cases hall : rest.all (fun idList => idList.contains t) with
        | true =>
          simp only [hall, if_true, Option.some.injEq, Prod.mk.injEq] at h
          rw [← h.1, hr2]
          simp
        | false =>
          simp only [hall, Bool.false_eq_true, if_false, Option.some.injEq,
            Prod.mk.injEq] at h
          rw [← h.1, hr2]
          simp

theorem filterCurrent_results (db : DB) :
    ∀ (l : List Nat) (r : List Nat),
    filterCurrent db l = some r →
    r = l.filter (fun tID => auctionIsCurrentB db tID) := by
  intro l
  induction l with
  | nil =>
    intro r h
    simp only [filterCurrent, Option.some.injEq] at h
    simp [← h]
  | cons t ts ih =>
    intro r h
    rw [filterCurrent] at h
    cases hg : getAuction db t with
    | none => simp [hg] at h
    | some a =>
      simp only [hg] at h
      cases hrec : filterCurrent db ts with
      | none => simp [hrec] at h
      | some r2 =>
        simp only [hrec, Option.map_some'] at h
        simp only [Option.some.injEq] at h
        have hcur : auctionIsCurrentB db t = a.isCurrent := by
          simp [auctionIsCurrentB, hg]
        rw [List.filter_cons, hcur, ← h, ih r2 hrec]

/-- The top-level search is the staged pipeline over the first keyword
match list and the remaining match lists. -/
theorem search_by_title_eq (today : Int) (db : DB) (q : String) :
    search_by_title today db q =
      match searchScan today (restMatchIDLists db q) (firstMatchIDs db q) db with
      | none => none
      | some (sr, db1) => (filterCurrent db1 sr).map (fun final => (final, db1)) := by
  unfold search_by_title firstMatchIDs restMatchIDLists
  cases hk : splitKeywords q with
  | nil => simp [searchScan, filterCurrent]
  | cons k ks =>
    simp only [List.map_cons, List.map_map]
    rw [show List.map (List.map Textbook.id ∘ keywordQuery db) ks =
      List.map (fun kw => List.map Textbook.id (keywordQuery db kw)) ks from rfl]
    cases hs : searchScan today (ks.map (fun kw => (keywordQuery db kw).map Textbook.id))
        ((keywordQuery db k).map Textbook.id) db with
    | none => simp [hs]
    | some p =>
      obtain ⟨sr, db1⟩ := p
      simp only [hs]
      cases hf : filterCurrent db1 sr <;> simp [hf]

/-! ## Claim C1 -/

/-- C1: for every query string and corpus, search_by_title returns a
textbook id only if that id appears in the match set of every keyword
obtained by splitting the query on the percent-two-zero delimiter
(logical AND across all tokens, so a corpus where one token matches a
title and another does not yields an empty result), and the returned
ids appear in the insertion order of the first keyword match set
(formally: the result is a sublist of it). -/
theorem search_by_title_and_semantics (today : Int) (db : DB) (q : String)
    (res : List Nat) (db' : DB)
    (h : search_by_title today db q = some (res, db')) :
    res.Sublist (firstMatchIDs db q) ∧
    ∀ tID ∈ res, ∀ kw ∈ splitKeywords q, tID ∈ (keywordQuery db kw).map Textbook.id := by
  rw [search_by_title_eq] at h
  cases hs : searchScan today (restMatchIDLists db q) (firstMatchIDs db q) db with
  | none => simp [hs] at h
  | some p =>
    obtain ⟨sr, db1⟩ := p
    simp only [hs] at h
    cases hf : filterCurrent db1 sr with
    | none => simp [hf] at h
    | some final =>
      simp only [hf, Option.map_some', Option.some.injEq, Prod.mk.injEq] at h
      obtain ⟨hres, hdb⟩ := h
      subst hres hdb
      have hsr := searchScan_results today (restMatchIDLists db q) (firstMatchIDs db q) db sr db1 hs
      have hfin := filterCurrent_results db1 sr final hf
      constructor
      · rw [hfin, hsr]
        exact (List.filter_sublist _).trans (List.filter_sublist _)
      · intro tID hmem kw hkw
        rw [hfin] at hmem
        have hsrmem : tID ∈ sr := (List.mem_filter.mp hmem).1
        rw [hsr] at hsrmem
        obtain ⟨hfirst, hall⟩ := List.mem_filter.mp hsrmem
        cases hksplit : splitKeywords q with
        | nil => rw [hksplit] at hkw; exact absurd hkw (by simp)
        | cons k ks =>
          rw [hksplit] at hkw
          rcases List.mem_cons.mp hkw with hkEq | hkTail
          · subst hkEq
            have : firstMatchIDs db q = (keywordQuery db kw).map Textbook.id := by
              unfold firstMatchIDs
              rw [hksplit]
            rw [← this]
            exact hfirst
          · have hlist : ((keywordQuery db kw).map Textbook.id) ∈ restMatchIDLists db q := by
              unfold restMatchIDLists
              rw [hksplit]
              exact List.mem_map_of_mem _ hkTail
            have hcont := (List.all_eq_true.mp hall) _ hlist
            simpa using hcont

/-- A two-textbook corpus used to exercise C1 concretely. -/
def c1DB : DB :=
  { users := [], nextTextbookId := 3, nextAuctionId := 3, files := [], uuids := [],
    textbooks := [
      { id := 1, title := "Intro Biology", author := "a", isbn := "i", publisher := "p",
        yearPublished := 2000, description := "", version := "1", condition := 50,
        course := "bio", coverPhotoName := "c", bestPhotoName := "b", worstPhotoName := "w",
        averagePhotoName := "m", seller := 1, auction := 1 },
      { id := 2, title := "Advanced Biology", author := "a", isbn := "i", publisher := "p",
        yearPublished := 2000, description := "", version := "1", condition := 50,
        course := "bio", coverPhotoName := "c", bestPhotoName := "b", worstPhotoName := "w",
        averagePhotoName := "m", seller := 1, auction := 2 }],
    auctions := [
      { id := 1, textbook := 1, minimumBid := 1, salePrice := 0, isCurrent := true,
        closingDate := 10 },
      { id := 2, textbook := 2, minimumBid := 1, salePrice := 0, isCurrent := true,
        closingDate := 10 }] }

/-- Witness for C1: on the concrete corpus the two-token query returns
exactly the one textbook matching both tokens, in first-list order. -/
theorem search_by_title_and_semantics_witness :
    search_by_title 5 c1DB "Intro%20Biology" = some ([1], c1DB) ∧
    (([1] : List Nat).Sublist (firstMatchIDs c1DB "Intro%20Biology") ∧
      ∀ tID ∈ ([1] : List Nat), ∀ kw ∈ splitKeywords "Intro%20Biology",
        tID ∈ (keywordQuery c1DB kw).map Textbook.id) :=
  ⟨by decide, search_by_title_and_semantics 5 c1DB "Intro%20Biology" [1] c1DB (by decide)⟩

/-! ## Claim C9 -/

/-- C9: the empty query splits into the single empty keyword, the empty
keyword substring-matches every title (LIKE with nothing between the
wildcards), and so the result of searching the empty string is exactly
the full textbook id list filtered by the line 59 isCurrent lookup. -/
theorem search_by_title_empty_query (today : Int) (db : DB) (res : List Nat) (db' : DB)
    (h : search_by_title today db "" = some (res, db')) :
    splitKeywords "" = [""] ∧
    (∀ t : Textbook, titleMatches "" t = true) ∧
    res = (db.textbooks.map Textbook.id).filter (fun tID => auctionIsCurrentB db' tID) := by
  have hmatch : ∀ t : Textbook, titleMatches "" t = true := by
    intro t
    show seqContains [] (strToLower t.title).data = true
    cases (strToLower t.title).data <;> rfl
  refine ⟨rfl, hmatch, ?_⟩
  have hfirst : firstMatchIDs db "" = db.textbooks.map Textbook.id := by
    show (db.textbooks.filter (titleMatches "")).map Textbook.id = db.textbooks.map Textbook.id
    rw [List.filter_eq_self.mpr (fun a _ => hmatch a)]
  have hrest : restMatchIDLists db "" = [] := rfl
  rw [search_by_title_eq, hfirst, hrest] at h
  cases hs : searchScan today [] (db.textbooks.map Textbook.id) db with
  | none => simp [hs] at h
  | some p =>
    obtain ⟨sr, db1⟩ := p
    simp only [hs] at h
    cases hf : filterCurrent db1 sr with
    | none => simp [hf] at h
    | some final =>
      simp only [hf, Option.map_some', Option.some.injEq, Prod.mk.injEq] at h
      obtain ⟨hres, hdb⟩ := h
      subst hres hdb
      have hsr := searchScan_results today [] (db.textbooks.map Textbook.id) db sr db1 hs
      have hsr' : sr = db.textbooks.map Textbook.id := by
        rw [hsr]
        exact List.filter_eq_self.mpr (fun a _ => rfl)
      have hfin := filterCurrent_results db1 sr final hf
      rw [hfin, hsr']

/-- Corpus for the C9 witness: two books, the second auction past its
closing date at the query time. -/
def c9DB : DB :=
  { users := [], nextTextbookId := 3, nextAuctionId := 3, files := [], uuids := [],
    textbooks := [
      { id := 1, title := "Intro Biology", author := "a", isbn := "i", publisher := "p",
        yearPublished := 2000, description := "", version := "1", condition := 50,
        course := "bio", coverPhotoName := "c", bestPhotoName := "b", worstPhotoName := "w",
        averagePhotoName := "m", seller := 1, auction := 1 },
      { id := 2, title := "Advanced Chemistry", author := "a", isbn := "i", publisher := "p",
        yearPublished := 2000, description := "", version := "1", condition := 50,
        course := "chem", coverPhotoName := "c", bestPhotoName := "b", worstPhotoName := "w",
        averagePhotoName := "m", seller := 1, auction := 2 }],
    auctions := [
      { id := 1, textbook := 1, minimumBid := 1, salePrice := 0, isCurrent := true,
        closingDate := 10 },
      { id := 2, textbook := 2, minimumBid := 1, salePrice := 0, isCurrent := true,
        closingDate := 3 }] }

/-- c9DB after the empty-query search: the expired auction 2 has been
lazily closed. -/
def c9DBAfter : DB :=
  { c9DB with auctions := [
      { id := 1, textbook := 1, minimumBid := 1, salePrice := 0, isCurrent := true,
        closingDate := 10 },
      { id := 2, textbook := 2, minimumBid := 1, salePrice := 0, isCurrent := false,
        closingDate := 3 }] }

/-- Witness for C9: on a non-empty corpus the empty query returns every
id passing the isCurrent filter (here id 1; id 2 expired on access). -/
theorem search_by_title_empty_query_witness :
    search_by_title 5 c9DB "" = some ([1], c9DBAfter) ∧
    ([1] : List Nat) =
      (c9DB.textbooks.map Textbook.id).filter (fun tID => auctionIsCurrentB c9DBAfter tID) :=
  ⟨by decide, (search_by_title_empty_query 5 c9DB [1] c9DBAfter (by decide)).2.2⟩

/-! ## Claim C3 -/

theorem find_close_aux (tID : Nat) : ∀ (l : List Auction) (a : Auction),
    l.find? (fun b => b.id == tID) = some a →
    (l.map (fun b => if b.id == tID then { b with isCurrent := false } else b)).find?
      (fun b => b.id == tID) = some { a with isCurrent := false } := by
  intro l
  induction l with
  | nil => intro a h; simp [List.find?] at h
  | cons c cs ih =>
    intro a h
    cases hc : c.id == tID with
    | true =>
      simp only [List.find?, hc] at h
      simp only [Option.some.injEq] at h
      subst h
      simp [List.find?, hc]
    | false =>
      simp only [List.find?, hc] at h
      rw [List.map_cons, if_neg (by simp [hc])]
      simp only [List.find?, hc]
      exact ih a h

/-- C3: when the current EST date is strictly past the closing date the
lifecycle check closes the auction and persists it; an auction whose
closing date is not yet passed (equality included) is left untouched;
and the operation is idempotent, a second invocation on the state it
produced returns that state unchanged. -/
theorem checkAndModifyAuctionIsCurrent_lifecycle (today : Int) (db : DB) (tID : Nat)
    (a : Auction) (h : getAuction db tID = some a) :
    (today > a.closingDate →
      ∃ db2, checkAndModifyAuctionIsCurrent today db tID = some db2 ∧
        getAuction db2 tID = some { a with isCurrent := false }) ∧
    (¬ today > a.closingDate → checkAndModifyAuctionIsCurrent today db tID = some db) ∧
    (∀ db2, checkAndModifyAuctionIsCurrent today db tID = some db2 →
      checkAndModifyAuctionIsCurrent today db2 tID = some db2) := by
  have hclose2 : ∀ l : List Auction,
      (l.map (fun b => if b.id == tID then { b with isCurrent := false } else b)).map
        (fun b => if b.id == tID then { b with isCurrent := false } else b) =
      l.map (fun b => if b.id == tID then { b with isCurrent := false } else b) := by
    intro l
    rw [List.map_map]
    apply List.map_congr_left
    intro b _
    simp only [Function.comp_apply]
    by_cases hb : (b.id == tID) = true
    · rw [if_pos hb]
      rw [if_pos (show (({ b with isCurrent := false } : Auction).id == tID) = true from hb)]
    · rw [if_neg hb, if_neg hb]
  refine ⟨?_, ?_, ?_⟩
  · intro hexp
    refine ⟨{ db with
        auctions := db.auctions.map
          (fun b => if b.id == tID then { b with isCurrent := false } else b) }, ?_, ?_⟩
    · unfold checkAndModifyAuctionIsCurrent
      simp only [h]
      rw [if_pos hexp]
    · exact find_close_aux tID db.auctions a h
  · intro hnexp
    unfold checkAndModifyAuctionIsCurrent
    simp only [h]
    rw [if_neg hnexp]
  · intro db2 h2
    unfold checkAndModifyAuctionIsCurrent at h2 ⊢
    simp only [h] at h2
    by_cases hexp : today > a.closingDate
    · rw [if_pos hexp] at h2
      simp only [Option.some.injEq] at h2
      subst h2
      have hg2 : getAuction
          { db with
            auctions := db.auctions.map
              (fun b => if b.id == tID then { b with isCurrent := false } else b) } tID =
          some { a with isCurrent := false } :=
        find_close_aux tID db.auctions a h
      simp only [hg2]
      rw [if_pos (show today > ({ a with isCurrent := false } : Auction).closingDate from hexp)]
      rw [hclose2 db.auctions]
    · rw [if_neg hexp] at h2
      simp only [Option.some.injEq] at h2
      subst h2
      simp only [h]
      rw [if_neg hexp]

/-- The expired auction used by the C3 witness. -/
def c3Auction : Auction :=
  { id := 1, textbook := 1, minimumBid := 1, salePrice := 0, isCurrent := true, closingDate := 3 }

/-- Store used by the C3 witness. -/
def c3DB : DB :=
  { users := [], textbooks := [], auctions := [c3Auction],
    nextTextbookId := 2, nextAuctionId := 2, files := [], uuids := [] }

/-- Witness for C3 at a concrete expired auction on day 5. -/
theorem checkAndModifyAuctionIsCurrent_lifecycle_witness :
    getAuction c3DB 1 = some c3Auction ∧
    (((5 : Int) > c3Auction.closingDate →
      ∃ db2, checkAndModifyAuctionIsCurrent 5 c3DB 1 = some db2 ∧
        getAuction db2 1 = some { c3Auction with isCurrent := false }) ∧
    (¬ (5 : Int) > c3Auction.closingDate →
      checkAndModifyAuctionIsCurrent 5 c3DB 1 = some c3DB) ∧
    (∀ db2, checkAndModifyAuctionIsCurrent 5 c3DB 1 = some db2 →
      checkAndModifyAuctionIsCurrent 5 db2 1 = some db2)) :=
  ⟨by decide, checkAndModifyAuctionIsCurrent_lifecycle 5 c3DB 1 c3Auction (by decide)⟩

/-! ## Claim C2 -/

theorem closeExpired_id (today : Int) (ids : List Nat) (a : Auction) :
    (closeExpired today ids a).id = a.id := by
  unfold closeExpired
  split <;> rfl

theorem closeExpired_cons_hit (today : Int) (t : Nat) (ts : List Nat) (x : Auction)
    (hxt : (x.id == t) = true) (hexp : today > x.closingDate) :
    closeExpired today ts { x with isCurrent := false } = closeExpired today (t :: ts) x := by
  unfold closeExpired
  have hd : decide (today > x.closingDate) = true := decide_eq_true hexp
  rw [show ({ x with isCurrent := false } : Auction).id = x.id from rfl,
      show ({ x with isCurrent := false } : Auction).closingDate = x.closingDate from rfl,
      List.contains_cons, hxt, hd]
  simp only [Bool.true_or, Bool.and_true, if_true]
  cases hc : ts.contains x.id <;> simp [hc]

theorem closeExpired_cons_not_gt (today : Int) (t : Nat) (ts : List Nat) (x : Auction)
    (hexp : ¬ today > x.closingDate) :
    closeExpired today ts x = closeExpired today (t :: ts) x := by
  unfold closeExpired
  have hd : decide (today > x.closingDate) = false := decide_eq_false hexp
  rw [hd]
  simp

theorem closeExpired_cons_miss (today : Int) (t : Nat) (ts : List Nat) (x : Auction)
    (hxt : (x.id == t) = false) :
    closeExpired today ts x = closeExpired today (t :: ts) x := by
  unfold closeExpired
  rw [List.contains_cons, hxt]
  simp

theorem searchScan_state (today : Int) (rest : List (List Nat)) :
    ∀ (ids : List Nat) (db : DB) (r : List Nat) (db1 : DB),
    (db.auctions.map Auction.id).Nodup →
    searchScan today rest ids db = some (r, db1) →
    db1.auctions = db.auctions.map (closeExpired today ids) := by
  intro ids
  induction ids with
  | nil =>
    intro db r db1 _ h
    simp only [searchScan, Option.some.injEq, Prod.mk.injEq] at h
    rw [← h.2]
    have hid : ∀ a ∈ db.auctions, closeExpired today [] a = a := by
      intro a _
      unfold closeExpired
      simp
    rw [List.map_congr_left hid, List.map_id']
  | cons t ts ih =>
    intro db r db1 hN h
    rw [searchScan] at h
    cases hchk : checkAndModifyAuctionIsCurrent today db t with
    | none => simp [hchk] at h
    | some dbx =>
      simp only [hchk] at h
      cases hscan : searchScan today rest ts dbx with
      | none => simp [hscan] at h
      | some p =>
        obtain ⟨r2, db2⟩ := p
        simp only [hscan] at h
        have hdb1 : db2 = db1 := by
          by_cases hall : (rest.all (fun idList => idList.contains t)) = true
          · rw [if_pos hall] at h
            simp only [Option.some.injEq, Prod.mk.injEq] at h
            exact h.2
          · rw [if_neg hall] at h
            simp only [Option.some.injEq, Prod.mk.injEq] at h
            exact h.2
        unfold checkAndModifyAuctionIsCurrent at hchk
        cases hg : getAuction db t with
        | none => simp [hg] at hchk
        | some b =>
          simp only [hg] at hchk
          have hg' : db.auctions.find? (fun x => x.id == t) = some b := hg
          have hbp : (b.id == t) = true :=
            @List.find?_some Auction (fun x => x.id == t) b db.auctions hg'
          have hbm : b ∈ db.auctions :=
            @List.mem_of_find?_eq_some Auction (fun x => x.id == t) b db.auctions hg'
          by_cases hexp : today > b.closingDate
          · rw [if_pos hexp] at hchk
            simp only [Option.some.injEq] at hchk
            subst hchk
            have hids : (db.auctions.map
                (fun x => if x.id == t then { x with isCurrent := false } else x)).map
                Auction.id = db.auctions.map Auction.id := by
              rw [List.map_map]
              apply List.map_congr_left
              intro x _
              simp only [Function.comp_apply]
              split <;> rfl
            have hN' : ((db.auctions.map
                (fun x => if x.id == t then { x with isCurrent := false } else x)).map
                Auction.id).Nodup := by
              rw [hids]; exact hN
            have h2 := ih _ r2 db2 hN' hscan
            rw [← hdb1, h2]
            show (db.auctions.map _).map (closeExpired today ts) =
              db.auctions.map (closeExpired today (t :: ts))
            rw [List.map_map]
            apply List.map_congr_left
            intro x hx
            simp only [Function.comp_apply]
            by_cases hxt : (x.id == t) = true
            · have hxb : x = b := by
                apply List.inj_on_of_nodup_map hN hx hbm
                have e1 : x.id = t := by simpa using hxt
                have e2 : b.id = t := by simpa using hbp
                rw [e1, e2]
              rw [if_pos hxt]
              exact closeExpired_cons_hit today t ts x hxt (hxb ▸ hexp)
            · have hxt' : (x.id == t) = false := by
                cases hb : x.id == t
                · rfl
                · exact absurd hb hxt
              rw [if_neg (by rw [hxt']; exact Bool.false_ne_true)]
              exact closeExpired_cons_miss today t ts x hxt'
          · rw [if_neg hexp] at hchk
            simp only [Option.some.injEq] at hchk
            subst hchk
            have h2 := ih db r2 db2 hN hscan
            rw [← hdb1, h2]
            apply List.map_congr_left
            intro x hx
            by_cases hxt : (x.id == t) = true
            · have hxb : x = b := by
                apply List.inj_on_of_nodup_map hN hx hbm
                have e1 : x.id = t := by simpa using hxt
                have e2 : b.id = t := by simpa using hbp
                rw [e1, e2]
              exact closeExpired_cons_not_gt today t ts x (hxb ▸ hexp)
            · have hxt' : (x.id == t) = false := by
                cases hb : x.id == t
                · rfl
                · exact absurd hb hxt
              exact closeExpired_cons_miss today t ts x hxt'

/-- Corpus refuting C2 as stated: textbook 1 references auction 2 via
its auction field, while auction 1 (same primary key as the textbook)
is a different, open auction. -/
def c2DB : DB :=
  { users := [], nextTextbookId := 2, nextAuctionId := 3, files := [], uuids := [],
    textbooks := [
      { id := 1, title := "math", author := "a", isbn := "i", publisher := "p",
        yearPublished := 2000, description := "", version := "1", condition := 50,
        course := "m", coverPhotoName := "c", bestPhotoName := "b", worstPhotoName := "w",
        averagePhotoName := "m", seller := 1, auction := 2 }],
    auctions := [
      { id := 1, textbook := 9, minimumBid := 1, salePrice := 0, isCurrent := true,
        closingDate := 10 },
      { id := 2, textbook := 1, minimumBid := 1, salePrice := 0, isCurrent := false,
        closingDate := 10 }] }

/-- Counterexample to C2 as stated: searching returns textbook id 1
even though the auction referenced by that textbook's auction field
(auction 2) has isCurrent false; the code filters on the auction whose
primary key equals the textbook id (auction 1), not on the referenced
auction. -/
theorem search_by_title_auction_field_counterexample :
    search_by_title 5 c2DB "math" = some ([1], c2DB) ∧
    (c2DB.textbooks.map Textbook.auction = [2]) ∧
    ((getAuction c2DB 2).map Auction.isCurrent = some false) := by
  refine ⟨by decide, by decide, by decide⟩

/-- C2 (amended): before filtering, the lifecycle check is applied with
each textbook id of the first keyword match list used directly as an
auction primary key -- the post-search auctions table is the original
table with exactly those auctions closed whose id occurs in the first
match list and whose closing date is strictly past -- and the final
result contains exactly the intersected textbook ids for which the
auction whose primary key equals the textbook id (not the auction
referenced by the textbook's auction field) has isCurrent true. -/
theorem search_by_title_lifecycle_and_filter (today : Int) (db : DB) (q : String)
    (res : List Nat) (db' : DB)
    (hN : (db.auctions.map Auction.id).Nodup)
    (h : search_by_title today db q = some (res, db')) :
    db'.auctions = db.auctions.map (closeExpired today (firstMatchIDs db q)) ∧
    res = (intersectedIDs db q).filter (fun tID => auctionIsCurrentB db' tID) := by
  rw [search_by_title_eq] at h
  cases hs : searchScan today (restMatchIDLists db q) (firstMatchIDs db q) db with
  | none => simp [hs] at h
  | some p =>
    obtain ⟨sr, db1⟩ := p
    simp only [hs] at h
    cases hf : filterCurrent db1 sr with
    | none => simp [hf] at h
    | some final =>
      simp only [hf, Option.map_some', Option.some.injEq, Prod.mk.injEq] at h
      obtain ⟨hres, hdb⟩ := h
      subst hres hdb
      constructor
      · exact searchScan_state today (restMatchIDLists db q) (firstMatchIDs db q)
          db sr db1 hN hs
      · have hsr := searchScan_results today (restMatchIDLists db q) (firstMatchIDs db q)
          db sr db1 hs
        have hfin := filterCurrent_results db1 sr final hf
        rw [hfin, hsr]
        rfl

/-- Witness for the amended C2 on the concrete corpus: the returned id
is exactly the intersected id whose primary-key auction is current, and
the auctions table is rewritten by the per-first-list close map. -/
theorem search_by_title_lifecycle_and_filter_witness :
    ((c2DB.auctions.map Auction.id).Nodup ∧
      search_by_title 5 c2DB "math" = some ([1], c2DB)) ∧
    (c2DB.auctions = c2DB.auctions.map (closeExpired 5 (firstMatchIDs c2DB "math")) ∧
      ([1] : List Nat) =
        (intersectedIDs c2DB "math").filter (fun tID => auctionIsCurrentB c2DB tID)) :=
  ⟨⟨by decide, by decide⟩,
    search_by_title_lifecycle_and_filter 5 c2DB "math" [1] c2DB (by decide) (by decide)⟩

/-! ## Claim C4 -/

/-- C4: the single credential-check entrypoint tries token verification
first and falls back to username plus password only when it yields no
user; an expired token behaves identically to a bad-signature token;
and with no valid token, an unknown username or a failing password
check both collapse to the single boolean outcome false. -/
theorem verify_password_token_first_and_collapse :
    (∀ (users : List User) (c : Credential) (password : String) (u : User),
      verify_auth_token users c.parse = some u →
      verify_password users c password = (true, some u)) ∧
    (∀ (users : List User) (raw password : String),
      verify_password users ⟨raw, TokenParse.expired⟩ password =
        verify_password users ⟨raw, TokenParse.badSignature⟩ password) ∧
    (∀ (users : List User) (raw password : String) (t : TokenParse),
      (t = TokenParse.expired ∨ t = TokenParse.badSignature) →
      users.all (fun u => !(u.username == raw) || !(u.verify_password password)) = true →
      verify_password users ⟨raw, t⟩ password = (false, none)) := by
  refine ⟨?_, ?_, ?_⟩
  · intro users c password u htok
    unfold verify_password
    rw [htok]
  · intro users raw password
    rfl
  · intro users raw password t ht hall
    have hnone : verify_auth_token users t = none := by
      rcases ht with h | h <;> rw [h] <;> rfl
    unfold verify_password
    rw [show (⟨raw, t⟩ : Credential).parse = t from rfl]
    simp only [hnone]
    cases hf : users.find? (fun u => u.username == raw) with
    | none => simp only [hf]
    | some u =>
      have hup : (u.username == raw) = true :=
        @List.find?_some User (fun v => v.username == raw) u users hf
      have hum : u ∈ users :=
        @List.mem_of_find?_eq_some User (fun v => v.username == raw) u users hf
      have := (List.all_eq_true.mp hall) u hum
      rw [hup] at this
      simp only [Bool.not_true, Bool.false_or, Bool.not_eq_true'] at this
      simp only [hf]
      rw [if_neg (by rw [this]; exact Bool.false_ne_true)]

/-- The registered user backing the C4 witness. -/
def c4User : User :=
  { id := 1, username := "alice", password_hash := hash_password "secret1", contact := "c" }

/-- Witness for C4: with a concrete user, an expired token plus a wrong
password collapses to false. -/
theorem verify_password_token_first_and_collapse_witness :
    (TokenParse.expired = TokenParse.expired ∨
      TokenParse.expired = TokenParse.badSignature) ∧
    ([c4User].all (fun u => !(u.username == "alice") || !(u.verify_password "wrong")) = true) ∧
    verify_password [c4User] ⟨"alice", TokenParse.expired⟩ "wrong" = (false, none) :=
  ⟨Or.inl rfl, by decide,
    verify_password_token_first_and_collapse.2.2 [c4User] "alice" "wrong"
      TokenParse.expired (Or.inl rfl) (by decide)⟩

/-! ## Claim C5 -/

/-- C5 (code bug): a register request missing the username raises
AttributeError at api.py line 148 (None.lower()) instead of returning
the missing_arguments JSON body, while a missing password, passwordCheck
or contactLink does return the 200 missing_arguments failure body. -/
theorem new_user_missing_username_crashes :
    new_user ⟨none, some "secret1", some "secret1", some "link"⟩ [] 1 =
      .error "AttributeError: NoneType object has no attribute lower" ∧
    new_user ⟨some "alice", none, some "secret1", some "link"⟩ [] 1 =
      .ok (jsonFailure "missing_arguments", []) ∧
    new_user ⟨some "alice", some "secret1", none, some "link"⟩ [] 1 =
      .ok (jsonFailure "missing_arguments", []) ∧
    new_user ⟨some "alice", some "secret1", some "secret1", none⟩ [] 1 =
      .ok (jsonFailure "missing_arguments", []) :=
  ⟨rfl, rfl, rfl, rfl⟩

/-! ## Claim C6 -/

/-- C6: if a registration succeeds, the stored username is the
lowercased input, and a second otherwise-valid registration whose
username agrees with the first up to letter case fails with
username_taken. -/
theorem new_user_case_insensitive_unique
    (r1 r2 : RegisterRequest) (users users1 : List User) (n1 n2 : Nat)
    (u1 u2 p2 c2 : String)
    (h1 : r1.username = some u1) (h2 : r2.username = some u2)
    (hcase : strToLower u1 = strToLower u2)
    (hp : r2.password = some p2) (hpc : r2.passwordCheck = some p2)
    (hc : r2.contactLink = some c2) (hcne : c2 ≠ "")
    (hlen1 : (strToLower u2).data.length ≤ 32)
    (hlen2 : 4 ≤ (strToLower u2).data.length)
    (hplen : 6 ≤ p2.data.length)
    (hs : new_user r1 users n1 = .ok (jsonSuccess, users1)) :
    (∃ w, users1 = users ++ [w] ∧ w.username = strToLower u1) ∧
    new_user r2 users1 n2 = .ok (jsonFailure "username_taken", users1) := by
  have hw : ∃ w, users1 = users ++ [w] ∧ w.username = strToLower u1 := by
    unfold new_user at hs
    rw [h1] at hs
    cases hpw : r1.password with
    | none => rw [hpw] at hs; simp [jsonSuccess, jsonFailure] at hs
    | some q1 =>
      cases hpcw : r1.passwordCheck with
      | none => rw [hpw, hpcw] at hs; simp [jsonSuccess, jsonFailure] at hs
      | some q2 =>
        cases hcw : r1.contactLink with
        | none => rw [hpw, hpcw, hcw] at hs; simp [jsonSuccess, jsonFailure] at hs
        | some ct =>
          rw [hpw, hpcw, hcw] at hs
          dsimp only at hs
          by_cases b1 : (ct == "") = true
          · rw [if_pos b1] at hs; simp [jsonSuccess, jsonFailure] at hs
          · rw [if_neg b1] at hs
            by_cases b2 : (strToLower u1).data.length > 32
            · rw [if_pos b2] at hs; simp [jsonSuccess, jsonFailure] at hs
            · rw [if_neg b2] at hs
              by_cases b3 : (strToLower u1).data.length < 4
              · rw [if_pos b3] at hs; simp [jsonSuccess, jsonFailure] at hs
              · rw [if_neg b3] at hs
                by_cases b4 : (q1 != q2) = true
                · rw [if_pos b4] at hs; simp [jsonSuccess, jsonFailure] at hs
                · rw [if_neg b4] at hs
                  by_cases b5 : q1.data.length < 6
                  · rw [if_pos b5] at hs; simp [jsonSuccess, jsonFailure] at hs
                  · rw [if_neg b5] at hs
                    by_cases b6 : ((users.find? (fun u => u.username == strToLower u1)).isSome)
                        = true
                    · rw [if_pos b6] at hs; simp [jsonSuccess, jsonFailure] at hs
                    · rw [if_neg b6] at hs
                      simp only [Except.ok.injEq, Prod.mk.injEq] at hs
                      exact ⟨_, hs.2.symm, rfl⟩
  refine ⟨hw, ?_⟩
  obtain ⟨w, hw1, hw2⟩ := hw
  unfold new_user
  rw [h2, hp, hpc, hc]
  dsimp only
  rw [if_neg (show ¬ (c2 == "") = true from by
    cases hb : c2 == ""
    · exact Bool.false_ne_true
    · exact absurd (by simpa using hb) hcne)]
  rw [if_neg (by omega)]
  rw [if_neg (by omega)]
  rw [if_neg (show ¬ (p2 != p2) = true from by simp)]
  rw [if_neg (by omega)]
  rw [if_pos (show ((users1.find? (fun u => u.username == strToLower u2)).isSome) = true from by
    rw [List.find?_isSome]
    exact ⟨w, by rw [hw1]; exact List.mem_append_right users (List.mem_singleton.mpr rfl),
      by rw [hw2, hcase]; exact beq_self_eq_true _⟩)]

/-- First registration request of the C6 witness. -/
def c6Req1 : RegisterRequest :=
  ⟨some "Alice", some "secret1", some "secret1", some "me"⟩

/-- Case-variant second registration request of the C6 witness. -/
def c6Req2 : RegisterRequest :=
  ⟨some "ALICE", some "secret1", some "secret1", some "me"⟩

/-- The user row stored by the first registration of the C6 witness. -/
def c6Stored : User :=
  { id := 1, username := "alice", password_hash := hash_password "secret1", contact := "me" }

/-- Witness for C6: registering Alice succeeds storing the lowercase
username; registering ALICE afterwards fails with username_taken. -/
theorem new_user_case_insensitive_unique_witness :
    new_user c6Req1 [] 1 = .ok (jsonSuccess, [c6Stored]) ∧
    ((∃ w, [c6Stored] = [] ++ [w] ∧ w.username = strToLower "Alice") ∧
      new_user c6Req2 [c6Stored] 2 = .ok (jsonFailure "username_taken", [c6Stored])) :=
  ⟨rfl,
    new_user_case_insensitive_unique c6Req1 c6Req2 [] [c6Stored] 1 2
      "Alice" "ALICE" "secret1" "me" rfl rfl (by decide) rfl rfl rfl
      (by decide) (by decide) (by decide) (by decide) rfl⟩

/-! ## Claim C7 -/

/-- C7: every successful add_book leaves the store extended by exactly
one textbook row and one auction row whose foreign keys reference each
other (Textbook.auction = Auction.id and Auction.textbook =
Textbook.id), the ids having been obtained by the flush and patched
before the commit. -/
theorem add_book_mutual_link (today : Int) (sellerId : Nat) (form : BookForm) (st : DB)
    (r : ApiResponse) (st2 : DB)
    (h : add_book today sellerId form st = .ok (r, st2))
    (hs : r.status = "success") :
    ∃ book auction,
      st2.textbooks = st.textbooks ++ [book] ∧
      st2.auctions = st.auctions ++ [auction] ∧
      book.auction = auction.id ∧ auction.textbook = book.id ∧ r.id = some book.id := by
  unfold add_book at h
  by_cases g1 : (!allowedFile form.cover || !allowedFile form.pic1
      || !allowedFile form.pic2 || !allowedFile form.pic3) = true
  · rw [if_pos g1] at h
    simp only [Except.ok.injEq, Prod.mk.injEq] at h
    rw [← h.1] at hs
    exact absurd hs (by decide)
  · rw [if_neg g1] at h
    by_cases g2 : (form.title == "" || form.isbn == "" || form.author == ""
        || form.publisher == "" || form.version == "" || form.price == ""
        || form.subject == "" || form.year == "" || form.rating == ""
        || form.price == "" || form.sellby == "") = true
    · rw [if_pos g2] at h
      simp only [Except.ok.injEq, Prod.mk.injEq] at h
      rw [← h.1] at hs
      exact absurd hs (by decide)
    · rw [if_neg g2] at h
      by_cases g3 : (!validPubYear form.year) = true
      · rw [if_pos g3] at h
        simp only [Except.ok.injEq, Prod.mk.injEq] at h
        rw [← h.1] at hs
        exact absurd hs (by decide)
      · rw [if_neg g3] at h
        by_cases g4 : (!validDateString today form.sellby) = true
        · rw [if_pos g4] at h
          simp only [Except.ok.injEq, Prod.mk.injEq] at h
          rw [← h.1] at hs
          exact absurd hs (by decide)
        · rw [if_neg g4] at h
          cases g5 : str_to_int form.rating with
          | none =>
            simp only [g5] at h
            exact Except.noConfusion h
          | some rating =>
            simp only [g5] at h
            by_cases g6 : (!validMinimumBid form.price) = true
            · rw [if_pos g6] at h
              simp only [Except.ok.injEq, Prod.mk.injEq] at h
              rw [← h.1] at hs
              exact absurd hs (by decide)
            · rw [if_neg g6] at h
              cases g7 : uniqueFileName st.files form.cover st.uuids with
              | none =>
                simp only [g7] at h
                exact Except.noConfusion h
              | some p1 =>
                obtain ⟨coverPath, us1⟩ := p1
                simp only [g7] at h
                cases g8 : uniqueFileName (st.files ++ [coverPath]) form.pic1 us1 with
                | none =>
                  simp only [g8] at h
                  exact Except.noConfusion h
                | some p2 =>
                  obtain ⟨bestPath, us2⟩ := p2
                  simp only [g8] at h
                  cases g9 : uniqueFileName (st.files ++ [coverPath] ++ [bestPath])
                      form.pic2 us2 with
                  | none =>
                    simp only [g9] at h
                    exact Except.noConfusion h
                  | some p3 =>
                    obtain ⟨worstPath, us3⟩ := p3
                    simp only [g9] at h
                    cases g10 : uniqueFileName
                        (st.files ++ [coverPath] ++ [bestPath] ++ [worstPath])
                        form.pic3 us3 with
                    | none =>
                      simp only [g10] at h
                      exact Except.noConfusion h
                    | some p4 =>
                      obtain ⟨averagePath, us4⟩ := p4
                      simp only [g10] at h
                      simp only [Except.ok.injEq, Prod.mk.injEq] at h
                      obtain ⟨h1, h2⟩ := h
                      subst h1
                      subst h2
                      exact ⟨_, _, rfl, rfl, rfl, rfl, rfl⟩

/-- Valid book form for the C7 witness. -/
def c7Form : BookForm :=
  { cover := "c.png", pic1 := "b.jpg", pic2 := "w.gif", pic3 := "m.jpeg",
    title := "T", isbn := "i", author := "a", publisher := "p", version := "1",
    price := "5", subject := "cs", year := "2000", description := "d", rating := "50",
    sellby := "10" }

/-- Empty store with four fresh uuids for the C7 witness. -/
def c7St : DB :=
  { users := [], textbooks := [], auctions := [],
    nextTextbookId := 1, nextAuctionId := 1, files := [],
    uuids := ["ua", "ub", "uc", "ud"] }

/-- Witness for C7: the concrete add_book run succeeds and the inserted
rows reference each other. -/
theorem add_book_mutual_link_witness :
    ∃ stOut : DB, add_book 0 7 c7Form c7St =
        .ok (⟨"success", none, some 1⟩, stOut) ∧
      ∃ book auction,
        stOut.textbooks = c7St.textbooks ++ [book] ∧
        stOut.auctions = c7St.auctions ++ [auction] ∧
        book.auction = auction.id ∧ auction.textbook = book.id ∧
        (⟨"success", none, some 1⟩ : ApiResponse).id = some book.id :=
  ⟨_, rfl, add_book_mutual_link 0 7 c7Form c7St ⟨"success", none, some 1⟩ _ rfl rfl⟩

/-! ## Claim C10 -/

/-- C10: the blank-field check of api.py lines 257-258 covers title,
isbn, author, publisher, version, price (twice), subject, year, rating
and sellby but not description, so an otherwise valid request with an
empty description succeeds and stores the book with the empty
description. -/
theorem add_book_empty_description (today : Int) (sellerId : Nat) (form : BookForm) (st : DB)
    (hdesc : form.description = "")
    (hac : allowedFile form.cover = true) (ha1 : allowedFile form.pic1 = true)
    (ha2 : allowedFile form.pic2 = true) (ha3 : allowedFile form.pic3 = true)
    (ht : form.title ≠ "") (hi : form.isbn ≠ "") (hau : form.author ≠ "")
    (hpub : form.publisher ≠ "") (hv : form.version ≠ "") (hpr : form.price ≠ "")
    (hsub : form.subject ≠ "") (hy : form.year ≠ "") (hr : form.rating ≠ "")
    (hsb : form.sellby ≠ "")
    (hyear : validPubYear form.year = true)
    (hdate : validDateString today form.sellby = true)
    (rating : Int) (hrat : str_to_int form.rating = some rating)
    (hbid : validMinimumBid form.price = true)
    (p1 p2 p3 p4 : String) (u1 u2 u3 u4 : List String)
    (hf1 : uniqueFileName st.files form.cover st.uuids = some (p1, u1))
    (hf2 : uniqueFileName (st.files ++ [p1]) form.pic1 u1 = some (p2, u2))
    (hf3 : uniqueFileName (st.files ++ [p1] ++ [p2]) form.pic2 u2 = some (p3, u3))
    (hf4 : uniqueFileName (st.files ++ [p1] ++ [p2] ++ [p3]) form.pic3 u3 = some (p4, u4)) :
    ∃ resp stOut, add_book today sellerId form st = .ok (resp, stOut) ∧
      resp.status = "success" ∧
      ∃ book, stOut.textbooks = st.textbooks ++ [book] ∧ book.description = "" := by
  unfold add_book
  rw [if_neg (by simp [hac, ha1, ha2, ha3])]
  rw [if_neg (by simp [ht, hi, hau, hpub, hv, hpr, hsub, hy, hr, hsb])]
  rw [if_neg (by simp [hyear])]
  rw [if_neg (by simp [hdate])]
  simp only [hrat]
  rw [if_neg (by simp [hbid])]
  simp only [hf1, hf2, hf3, hf4]
  refine ⟨_, _, rfl, rfl, _, rfl, hdesc⟩

/-- The C10 witness form: identical to a valid submission except the
description is empty. -/
def c10Form : BookForm :=
  { cover := "c.png", pic1 := "b.jpg", pic2 := "w.gif", pic3 := "m.jpeg",
    title := "T", isbn := "i", author := "a", publisher := "p", version := "1",
    price := "5", subject := "cs", year := "2000", description := "", rating := "50",
    sellby := "10" }

/-- Empty store with four fresh uuids for the C10 witness. -/
def c10St : DB :=
  { users := [], textbooks := [], auctions := [],
    nextTextbookId := 1, nextAuctionId := 1, files := [],
    uuids := ["wa", "wb", "wc", "wd"] }

/-- Witness for C10: the concrete empty-description request succeeds
and the stored book has an empty description. -/
theorem add_book_empty_description_witness :
    c10Form.description = "" ∧
    ∃ resp stOut, add_book 0 7 c10Form c10St = .ok (resp, stOut) ∧
      resp.status = "success" ∧
      ∃ book, stOut.textbooks = c10St.textbooks ++ [book] ∧ book.description = "" :=
  ⟨rfl,
    add_book_empty_description 0 7 c10Form c10St rfl rfl rfl rfl rfl
      (by decide) (by decide) (by decide) (by decide) (by decide) (by decide)
      (by decide) (by decide) (by decide) (by decide)
      (by decide) (by decide) 50 rfl (by decide)
      "wa.png" "wb.jpg" "wc.gif" "wdjpeg" ["wb", "wc", "wd"] ["wc", "wd"] ["wd"] []
      rfl rfl rfl rfl⟩

/-! ## Claim C8 -/

theorem secure_filename_of_safe (s : String)
    (hs : ∀ c ∈ s.data, isSafeFilenameChar c = true) : secure_filename s = s := by
  unfold secure_filename
  rw [List.filter_eq_self.mpr hs]

theorem lastFourChars_append (a b : String) (hb : b.data.length = 4) :
    lastFourChars (a ++ b) = b := by
  unfold lastFourChars
  rw [String.data_append, List.reverse_append]
  rw [List.take_left' (by rw [List.length_reverse]; exact hb)]
  rw [List.reverse_reverse]

theorem lastFourChars_data_length (s : String) (h : 4 ≤ s.data.length) :
    (lastFourChars s).data.length = 4 := by
  unfold lastFourChars
  show ((s.data.reverse.take 4).reverse).length = 4
  rw [List.length_reverse, List.length_take, List.length_reverse]
  omega

theorem uniqueFileName_characterization (files : List String) :
    ∀ (uuids : List String) (filename : String) (name : String) (rest : List String),
    (lastFourChars filename).data.length = 4 →
    (∀ c ∈ (lastFourChars filename).data, isSafeFilenameChar c = true) →
    (∀ u ∈ uuids, ∀ c ∈ u.data, isSafeFilenameChar c = true) →
    uniqueFileName files filename uuids = some (name, rest) →
    ∃ pre u post, uuids = pre ++ u :: post ∧
      name = u ++ lastFourChars filename ∧ rest = post ∧
      files.contains name = false ∧
      (∀ v ∈ pre, files.contains (v ++ lastFourChars filename) = true) := by
  intro uuids
  induction uuids with
  | nil =>
    intro filename name rest _ _ _ h
    exact Option.noConfusion h
  | cons u us ih =>
    intro filename name rest hlen hsafeF hsafeU h
    rw [uniqueFileName] at h
    have hsafeCat : ∀ c ∈ (u ++ lastFourChars filename).data, isSafeFilenameChar c = true := by
      intro c hc
      rw [String.data_append] at hc
      rcases List.mem_append.mp hc with hcu | hcf
      · exact hsafeU u (List.mem_cons_self u us) c hcu
      · exact hsafeF c hcf
    rw [secure_filename_of_safe _ hsafeCat] at h
    by_cases hcol : (files.contains (u ++ lastFourChars filename)) = true
    · rw [if_pos hcol] at h
      have hlast : lastFourChars (u ++ lastFourChars filename) = lastFourChars filename :=
        lastFourChars_append u (lastFourChars filename) hlen
      have hlen' : (lastFourChars (u ++ lastFourChars filename)).data.length = 4 := by
        rw [hlast]; exact hlen
      have hsafeF' : ∀ c ∈ (lastFourChars (u ++ lastFourChars filename)).data,
          isSafeFilenameChar c = true := by
        rw [hlast]; exact hsafeF
      have hsafeU' : ∀ v ∈ us, ∀ c ∈ v.data, isSafeFilenameChar c = true := by
        intro v hv
        exact hsafeU v (List.mem_cons_of_mem u hv)
      obtain ⟨pre, v, post, hsplit, hname, hrest, hfresh, hcolls⟩ :=
        ih (u ++ lastFourChars filename) name rest hlen' hsafeF' hsafeU' h
      refine ⟨u :: pre, v, post, by rw [hsplit]; rfl, by rw [hname, hlast], hrest,
        by rw [hname, hlast] at hfresh ⊢; exact hfresh, ?_⟩
      intro w hw
      rcases List.mem_cons.mp hw with hwu | hwp
      · rw [hwu]
        exact hcol
      · have := hcolls w hwp
        rw [hlast] at this
        exact this
    · rw [if_neg hcol] at h
      simp only [Option.some.injEq, Prod.mk.injEq] at h
      refine ⟨[], u, us, rfl, h.1.symm, h.2.symm, ?_, by intro v hv; cases hv⟩
      rw [← h.1]
      cases hb : files.contains (u ++ lastFourChars filename)
      · rfl
      · exact absurd hb hcol

/-- C8: for a filename passing the extension check, a successful
uniqueFileName run returns some uuid from the stream concatenated with
the last-four-character slice of the original name (the dot plus a
three-letter extension, or the four letters of jpeg), the returned name
is absent from the upload folder, and every uuid skipped before it
produced a colliding name. -/
theorem uniqueFileName_fresh_unique (files : List String) (filename : String)
    (uuids : List String) (name : String) (rest : List String)
    (_hext : allowedFile filename = true)
    (hlen : (lastFourChars filename).data.length = 4)
    (hsafeF : ∀ c ∈ (lastFourChars filename).data, isSafeFilenameChar c = true)
    (hsafeU : ∀ u ∈ uuids, ∀ c ∈ u.data, isSafeFilenameChar c = true)
    (h : uniqueFileName files filename uuids = some (name, rest)) :
    ∃ pre u post, uuids = pre ++ u :: post ∧
      name = u ++ lastFourChars filename ∧ rest = post ∧
      files.contains name = false ∧
      (∀ v ∈ pre, files.contains (v ++ lastFourChars filename) = true) :=
  uniqueFileName_characterization files uuids filename name rest hlen hsafeF hsafeU h

/-- Witness for C8: the first uuid collides with an existing file, the
loop regenerates with the second uuid and returns the fresh name. -/
theorem uniqueFileName_fresh_unique_witness :
    allowedFile "x.png" = true ∧
    uniqueFileName ["aaaa.png"] "x.png" ["aaaa", "bbbb"] = some ("bbbb.png", []) ∧
    ∃ pre u post, (["aaaa", "bbbb"] : List String) = pre ++ u :: post ∧
      "bbbb.png" = u ++ lastFourChars "x.png" ∧ ([] : List String) = post ∧
      (["aaaa.png"] : List String).contains "bbbb.png" = false ∧
      (∀ v ∈ pre, (["aaaa.png"] : List String).contains (v ++ lastFourChars "x.png") = true) :=
  ⟨by decide, by decide,
    uniqueFileName_fresh_unique ["aaaa.png"] "x.png" ["aaaa", "bbbb"] "bbbb.png" []
      (by decide) (by decide) (by decide) (by decide) (by decide)⟩
